import Mathlib

/-!
Shallow embedding of `src/http_client.rs` (udemy-dl-rs): an authenticated
HTTP helper with a chunked ranged downloader.  Network responses are
modelled as explicit parameters; each operation returns, besides its
result, a trace of the observable events (requests sent, progress-callback
invocations).  Statuses are numeric codes; bodies are lists of bytes
(`List Nat`).
-/

namespace HttpClient

/-- Fixed user-agent string, `DEFAULT_UA` in the source. -/
def DEFAULT_UA : String := "Mozilla/5.0 (Windows NT 6.1; WOW64) AppleWebKit/537.21 (KHTML, like Gecko) Mwendo/1.1.5 Safari/537.21"

/-- Chunk size for ranged downloads, `CHUNK = 2 * 1024 * 1024` in the source. -/
def CHUNK : Nat := 2 * 1024 * 1024

/-- Modelled from the spec: `crate::model::Auth` is outside the given sources;
the spec says it holds an optional opaque access token, and
`construct_headers` reads `auth.access_token.as_ref().unwrap()`. -/
structure Auth where
  access_token : Option String

/-- A header map: ordered list of (name, value) pairs; `insert` replaces the
value of an existing name (reqwest `HeaderMap::insert` semantics). -/
structure HeaderMap where
  entries : List (String × String)
deriving DecidableEq, Repr

def HeaderMap.empty : HeaderMap := ⟨[]⟩

def HeaderMap.insert (m : HeaderMap) (k v : String) : HeaderMap :=
  if m.entries.any (fun e => e.1 = k) then
    ⟨m.entries.map (fun e => if e.1 = k then (k, v) else e)⟩
  else
    ⟨m.entries ++ [(k, v)]⟩

def HeaderMap.find (m : HeaderMap) (k : String) : Option String :=
  (m.entries.find? (fun e => e.1 = k)).map Prod.snd

/-- A character is acceptable in an HTTP header value, per the `http`
crate's `HeaderValue` validity check on each byte:
`b >= 32 && b != 127 || b == b'\t'`.  Checking per char is equivalent to
checking per UTF-8 byte: every byte of a multi-byte char is ≥ 128, hence
valid, and so is every char ≥ 128 here. -/
def headerValueCharValid (c : Char) : Bool :=
  (32 ≤ c.toNat && c.toNat != 127) || c.toNat == 9

/-- `HeaderValue::from_str` succeeds exactly when every character of the
string is a valid header-value byte. -/
def headerValueValid (s : String) : Bool :=
  s.data.all headerValueCharValid

/-- `construct_headers`: builds the authenticated header set.  Two panic
paths, both modelled as `none`: `auth.access_token.as_ref().unwrap()` panics
when the token is absent, and `HeaderValue::from_str(bearer.as_str()).unwrap()`
panics when the bearer string holds a byte invalid in a header value (e.g. a
newline in the token).  The `HeaderName::from_lowercase(b"x-udemy-authorization")`
and `HeaderValue::from_str(DEFAULT_UA)` unwraps are on fixed valid constants
and never panic. -/
def construct_headers (auth : Auth) : Option HeaderMap :=
  match auth.access_token with
  | none => none
  | some tok =>
    let bearer := "Bearer " ++ tok
    if headerValueValid bearer then
      some (((HeaderMap.empty.insert "authorization" bearer).insert
          "x-udemy-authorization" bearer).insert "user-agent" DEFAULT_UA)
    else none

/-- reqwest `StatusCode::is_success`: 2xx. -/
def statusIsSuccess (s : Nat) : Bool := 200 ≤ s && s < 300

/-- A text-bearing HTTP response: status code and body text. -/
structure TextResp where
  status : Nat
  body : String

/-- Trace of `get_as_text`: the requests actually sent (url, headers) and the
outcome; `none` is a panic during header construction. -/
structure GetTextOut where
  sentRequests : List (String × HeaderMap)
  result : Option (Except String String)

/-- `get_as_text`: authenticated GET; 2xx returns the body text, otherwise an
error naming the URL and status.  `resp` is the response the transport
delivers for the GET. -/
def get_as_text (url : String) (auth : Auth) (resp : TextResp) : GetTextOut :=
  match construct_headers auth with
  | none => ⟨[], none⟩
  | some hs =>
    ⟨[(url, hs)],
      some (if statusIsSuccess resp.status then Except.ok resp.body
        else Except.error
          ("Error while getting from url <" ++ url ++ ">: <" ++ toString resp.status ++ ">"))⟩

/-- `get_as_json`: fetches text via `get_as_text`, then parses it with
`parse` (modelling `serde_json::from_str`); a parse failure is wrapped in an
error naming the URL and the parse diagnostic. -/
def get_as_json {V : Type} (parse : String → Except String V) (url : String)
    (auth : Auth) (resp : TextResp) : Option (Except String V) :=
  match (get_as_text url auth resp).result with
  | none => none
  | some (Except.error e) => some (Except.error e)
  | some (Except.ok text) =>
    some (match parse text with
      | Except.ok v => Except.ok v
      | Except.error e =>
        Except.error ("Error parsing json from url <" ++ url ++ ">: " ++ toString e))

/-- A HEAD response: status, optional content-length header, and whether an
Accept-Ranges header is present. -/
structure HeadResp where
  status : Nat
  content_length : Option Nat
  accept_ranges : Bool

/-- `get_content_length`: unauthenticated HEAD; on 2xx reads the
content-length header, failing explicitly when absent; on non-2xx fails
naming the URL and status. -/
def get_content_length (url : String) (resp : HeadResp) : Except String Nat :=
  if statusIsSuccess resp.status then
    match resp.content_length with
    | some n => Except.ok n
    | none => Except.error ("Error getting length of url <" ++ url ++ ">")
  else
    Except.error
      ("Error while trying to access url <" ++ url ++ "> - <" ++ toString resp.status ++ ">")

/-- `has_http_range`: unauthenticated HEAD, tests for Accept-Ranges; any
transport failure (`Except.error ()` on the probe) collapses to a generic
message. -/
def has_http_range (headResult : Except Unit HeadResp) : Except String Bool :=
  match headResult with
  | Except.ok r => Except.ok r.accept_ranges
  | Except.error _ => Except.error "Could not check http range"

/-- Trace of `post_json`. -/
structure PostOut where
  sentRequests : List (String × HeaderMap)
  result : Option (Except String Unit)

/-- `post_json`: authenticated POST of a JSON body; succeeds as soon as the
request is sent, regardless of the response status (`respStatus`). -/
def post_json {V : Type} (url : String) (_json : V) (auth : Auth)
    (_respStatus : Nat) : PostOut :=
  match construct_headers auth with
  | none => ⟨[], none⟩
  | some hs => ⟨[(url, hs)], some (Except.ok ())⟩

/-- A response to a GET during the download path: status code and body bytes. -/
structure RangeResp where
  status : Nat
  body : List Nat

/-- The Range header string the loop sends at a given offset:
`format!("bytes={}-{}", offset, offset + CHUNK - 1)`. -/
def rangeHeader (offset : Nat) : String :=
  "bytes=" ++ toString offset ++ "-" ++ toString (offset + CHUNK - 1)

/-- Trace of the ranged download loop: the offsets of the ranged GETs in
order, the values passed to the progress callback in order, whether the loop
ended through the `offset > total` break after a 206, and the outcome (the
error carries the unexpected status code). -/
structure LoopTrace where
  requests : List Nat
  progress : List Nat
  exit206 : Bool
  result : Except Nat (List Nat)
deriving Repr

/-- The ranged loop of `get_as_data`, generalized over the chunk size so the
termination argument stays symbolic: at each `offset` issue a GET with
`Range: bytes=offset-(offset+chunk-1)`; on 206 append the body, report
`offset + chunk`, advance, and break once the new offset exceeds `total`; on
200 append the full body (`copy_to` writes to the end of `buf`) and break;
any other status is an error.  `serve` maps the requested offset to the
response the server delivers. -/
def rangedLoopC (chunk : Nat) (hc : 0 < chunk) (serve : Nat → RangeResp)
    (total : Nat) (offset : Nat) (buf : List Nat) : LoopTrace :=
  if (serve offset).status = 206 then
    if offset + chunk > total then
      ⟨[offset], [offset + chunk], true, Except.ok (buf ++ (serve offset).body)⟩
    else
      let rest := rangedLoopC chunk hc serve total (offset + chunk)
        (buf ++ (serve offset).body)
      ⟨offset :: rest.requests, (offset + chunk) :: rest.progress,
        rest.exit206, rest.result⟩
  else if (serve offset).status = 200 then
    ⟨[offset], [], false, Except.ok (buf ++ (serve offset).body)⟩
  else
    ⟨[offset], [], false, Except.error (serve offset).status⟩
termination_by total + 1 - offset
decreasing_by omega

/-- `CHUNK` is positive; used to instantiate the generalized loop. -/
def CHUNK_pos : 0 < CHUNK := by norm_num [CHUNK]

/-- The ranged loop with the source's fixed `CHUNK = 2 * 1024 * 1024`. -/
def rangedLoop : (Nat → RangeResp) → Nat → Nat → List Nat → LoopTrace :=
  rangedLoopC CHUNK CHUNK_pos

/-- The server side of one `get_as_data` call: the response (or transport
failure) to the range probe's HEAD, the response to `get_content_length`'s
HEAD, the responses to ranged GETs by offset, and the response to the plain
unranged GET. -/
structure Server where
  head1 : Except Unit HeadResp
  head2 : HeadResp
  ranged : Nat → RangeResp
  full : RangeResp

/-- Trace of `get_as_data`: the ranged-loop trace when the ranged path runs,
the URLs of plain unranged GETs sent, the progress-callback invocations of
the unranged path, and the outcome. -/
structure DataOut where
  loopTrace : Option LoopTrace
  fullRequests : List String
  fullProgress : List Nat
  result : Except String (List Nat)

/-- `get_as_data`: probe range support; if supported, fetch the length and
run the ranged loop from offset 0 with an empty buffer; otherwise issue one
plain GET, report the body size once on success, or fail naming the URL. -/
def get_as_data (url : String) (srv : Server) : DataOut :=
  match has_http_range srv.head1 with
  | Except.error e => ⟨none, [], [], Except.error e⟩
  | Except.ok true =>
    match get_content_length url srv.head2 with
    | Except.error e => ⟨none, [], [], Except.error e⟩
    | Except.ok total =>
      let t := rangedLoop srv.ranged total 0 []
      ⟨some t, [], [],
        match t.result with
        | Except.ok buf => Except.ok buf
        | Except.error code => Except.error ("Error received " ++ toString code)⟩
  | Except.ok false =>
    if statusIsSuccess srv.full.status then
      ⟨none, [url], [srv.full.body.length], Except.ok srv.full.body⟩
    else
      ⟨none, [url], [], Except.error ("Error while getting from url <" ++ url ++ ">")⟩

/-- Concrete server: range support, content length 5,000,000, every ranged
GET answers 206 with a one-byte body. -/
def srvA : Server :=
  ⟨Except.ok ⟨200, some 5000000, true⟩, ⟨200, some 5000000, true⟩,
    fun _ => ⟨206, [7]⟩, ⟨200, []⟩⟩

/-- Concrete server: range support, but the first ranged GET answers 200
with the whole body. -/
def srvB : Server :=
  ⟨Except.ok ⟨200, some 100, true⟩, ⟨200, some 100, true⟩,
    fun _ => ⟨200, [1, 2, 3]⟩, ⟨200, []⟩⟩

/-- Concrete server: no range support; the plain GET answers 200. -/
def srvC : Server :=
  ⟨Except.ok ⟨200, some 3, false⟩, ⟨200, some 3, false⟩,
    fun _ => ⟨200, []⟩, ⟨200, [4, 5, 6]⟩⟩

/-- Concrete server: range support, content length 4 MiB; the first ranged
GET answers 206 with body `[1, 2]`, every later one answers 200 with body
`[3, 4]`. -/
def srvD : Server :=
  ⟨Except.ok ⟨200, some 4194304, true⟩, ⟨200, some 4194304, false⟩,
    fun o => if o = 0 then ⟨206, [1, 2]⟩ else ⟨200, [3, 4]⟩, ⟨200, []⟩⟩

/-! ## Helper lemmas -/

/-- The fixed user-agent constant is a valid header value, so the
`HeaderValue::from_str(DEFAULT_UA).unwrap()` in the source never panics and
the model's unconditional user-agent insert is faithful. -/
theorem DEFAULT_UA_valid : headerValueValid DEFAULT_UA = true := by decide

/-- The offsets requested by the ranged loop form the arithmetic progression
`offset, offset + chunk, offset + 2*chunk, …`, and at least one request is
sent. -/
theorem rangedLoopC_requests_shape (chunk : Nat) (hc : 0 < chunk)
    (serve : Nat → RangeResp) (total offset : Nat) (buf : List Nat) :
    ∃ k, 0 < k ∧ (rangedLoopC chunk hc serve total offset buf).requests =
      (List.range k).map (fun i => offset + i * chunk) := by
  induction offset, buf using rangedLoopC.induct chunk hc serve total with
  | case1 offset buf h1 h2 =>
    refine ⟨1, Nat.one_pos, ?_⟩
    rw [rangedLoopC.eq_def]
    simp [h1, h2, show List.range 1 = [0] from rfl]
  | case2 offset buf h1 h2 ih =>
    obtain ⟨k, hk, ihr⟩ := ih
    refine ⟨k + 1, Nat.succ_pos k, ?_⟩
    rw [rangedLoopC.eq_def]
    simp only [h1, h2, eq_self_iff_true, if_true, if_false, ite_true, ite_false]
    rw [List.range_succ_eq_map, List.map_cons, List.map_map]
    simp only [List.cons.injEq]
    constructor
    · simp
    · rw [ihr]
      apply List.map_congr_left
      intro i hi
      simp [Function.comp]
      ring
  | case3 offset buf h1 h2 =>
    refine ⟨1, Nat.one_pos, ?_⟩
    rw [rangedLoopC.eq_def]
    simp [h1, h2, show List.range 1 = [0] from rfl]
  | case4 offset buf h1 h2 =>
    refine ⟨1, Nat.one_pos, ?_⟩
    rw [rangedLoopC.eq_def]
    simp [h1, h2, show List.range 1 = [0] from rfl]

/-- The values the ranged loop passes to the progress callback are
`offset + chunk, offset + 2*chunk, …`: each is the nominal offset after the
corresponding 206, never a count of bytes received. -/
theorem rangedLoopC_progress_shape (chunk : Nat) (hc : 0 < chunk)
    (serve : Nat → RangeResp) (total offset : Nat) (buf : List Nat) :
    ∃ k, (rangedLoopC chunk hc serve total offset buf).progress =
      (List.range k).map (fun i => offset + (i + 1) * chunk) := by
  induction offset, buf using rangedLoopC.induct chunk hc serve total with
  | case1 offset buf h1 h2 =>
    refine ⟨1, ?_⟩
    rw [rangedLoopC.eq_def]
    simp [h1, h2, show List.range 1 = [0] from rfl]
  | case2 offset buf h1 h2 ih =>
    obtain ⟨k, ihr⟩ := ih
    refine ⟨k + 1, ?_⟩
    rw [rangedLoopC.eq_def]
    simp only [h1, h2, eq_self_iff_true, if_true, if_false, ite_true, ite_false]
    rw [List.range_succ_eq_map, List.map_cons, List.map_map]
    simp only [List.cons.injEq]
    constructor
    · simp
    · rw [ihr]
      apply List.map_congr_left
      intro i hi
      simp [Function.comp]
      ring
  | case3 offset buf h1 h2 =>
    refine ⟨0, ?_⟩
    rw [rangedLoopC.eq_def]
    simp [h1, h2]
  | case4 offset buf h1 h2 =>
    refine ⟨0, ?_⟩
    rw [rangedLoopC.eq_def]
    simp [h1, h2]

/-- When the loop ends through the `offset > total` break after a 206, the
last progress value reported strictly exceeds `total`. -/
theorem rangedLoopC_exit206_last (chunk : Nat) (hc : 0 < chunk)
    (serve : Nat → RangeResp) (total offset : Nat) (buf : List Nat)
    (hx : (rangedLoopC chunk hc serve total offset buf).exit206 = true) :
    ∃ v, (rangedLoopC chunk hc serve total offset buf).progress.getLast? = some v ∧
      total < v := by
  induction offset, buf using rangedLoopC.induct chunk hc serve total with
  | case1 offset buf h1 h2 =>
    rw [rangedLoopC.eq_def]
    simp only [h1, h2, eq_self_iff_true, if_true, ite_true]
    exact ⟨offset + chunk, by simp, h2⟩
  | case2 offset buf h1 h2 ih =>
    rw [rangedLoopC.eq_def] at hx ⊢
    simp only [h1, h2, eq_self_iff_true, if_true, if_false, ite_true, ite_false] at hx ⊢
    obtain ⟨v, hv, htv⟩ := ih hx
    refine ⟨v, ?_, htv⟩
    cases hp : (rangedLoopC chunk hc serve total (offset + chunk) (buf ++ (serve offset).body)).progress with
    | nil => rw [hp] at hv; simp at hv
    | cons b l => rw [hp] at hv; rw [List.getLast?_cons_cons]; exact hv
  | case3 offset buf h1 h2 =>
    rw [rangedLoopC.eq_def] at hx
    simp [h1, h2] at hx
  | case4 offset buf h1 h2 =>
    rw [rangedLoopC.eq_def] at hx
    simp [h1, h2] at hx

/-- When every response is 206, the loop returns the initial buffer followed
by the concatenation of the response bodies at the requested offsets, in
request order, and terminates through the `offset > total` break. -/
theorem rangedLoopC_all206 (chunk : Nat) (hc : 0 < chunk)
    (serve : Nat → RangeResp) (h206 : ∀ o, (serve o).status = 206)
    (total offset : Nat) (buf : List Nat) :
    (rangedLoopC chunk hc serve total offset buf).result =
      Except.ok (buf ++
        ((rangedLoopC chunk hc serve total offset buf).requests.map
          (fun o => (serve o).body)).flatten) ∧
    (rangedLoopC chunk hc serve total offset buf).exit206 = true := by
  induction offset, buf using rangedLoopC.induct chunk hc serve total with
  | case1 offset buf h1 h2 =>
    rw [rangedLoopC.eq_def]
    simp [h1, h2]
  | case2 offset buf h1 h2 ih =>
    obtain ⟨ihr, ihx⟩ := ih
    rw [rangedLoopC.eq_def]
    simp only [h1, h2, eq_self_iff_true, if_true, if_false, ite_true, ite_false]
    refine ⟨?_, ihx⟩
    rw [ihr]
    simp [List.flatten_cons]
  | case3 offset buf h1 h2 =>
    exact absurd (h206 offset) h1
  | case4 offset buf h1 h2 =>
    exact absurd (h206 offset) h1

/-! ## Claims -/

/-- Claim C1: when the range probe reports support, `get_content_length`
returns 5,000,000 and every ranged GET answers 206, `get_as_data` issues
exactly 3 range requests with Range headers `bytes=0-2097151`,
`bytes=2097152-4194303` and `bytes=4194304-6291455` (offset advances by
`CHUNK` after each 206 and the loop stops exactly when the new offset
exceeds the total), then returns the accumulated buffer. -/
theorem claim_C1 (url : String) (srv : Server)
    (hprobe : has_http_range srv.head1 = Except.ok true)
    (hlen : get_content_length url srv.head2 = Except.ok 5000000)
    (h206 : ∀ o, (srv.ranged o).status = 206) :
    ∃ t, (get_as_data url srv).loopTrace = some t ∧
      t.requests.map rangeHeader =
        ["bytes=0-2097151", "bytes=2097152-4194303", "bytes=4194304-6291455"] ∧
      t.requests.length = 3 ∧
      (get_as_data url srv).result =
        Except.ok ((srv.ranged 0).body ++ (srv.ranged 2097152).body ++
          (srv.ranged 4194304).body) := by
  have hloop : rangedLoop srv.ranged 5000000 0 [] =
      ⟨[0, 2097152, 4194304], [2097152, 4194304, 6291456], true,
        Except.ok ((srv.ranged 0).body ++ (srv.ranged 2097152).body ++
          (srv.ranged 4194304).body)⟩ := by
    rw [rangedLoop]
    rw [rangedLoopC.eq_def]
    norm_num [h206, CHUNK]
    rw [rangedLoopC.eq_def]
    norm_num [h206, CHUNK]
    rw [rangedLoopC.eq_def]
    norm_num [h206, CHUNK]
  refine ⟨rangedLoop srv.ranged 5000000 0 [], ?_, ?_, ?_, ?_⟩ <;>
    simp only [get_as_data, hprobe, hlen, hloop] <;>
    simp [rangeHeader, CHUNK] <;>
    exact ⟨rfl, rfl, rfl⟩

/-- Witness for C1 at the concrete all-206 server `srvA`. -/
theorem claim_C1_witness :
    ∃ t, (get_as_data "u" srvA).loopTrace = some t ∧
      t.requests.map rangeHeader =
        ["bytes=0-2097151", "bytes=2097152-4194303", "bytes=4194304-6291455"] ∧
      t.requests.length = 3 ∧
      (get_as_data "u" srvA).result =
        Except.ok ((srvA.ranged 0).body ++ (srvA.ranged 2097152).body ++
          (srvA.ranged 4194304).body) :=
  claim_C1 "u" srvA rfl rfl (fun _ => rfl)

/-- Claim C2 counterexample: on `srvD` the first ranged GET answers 206 with
body `[1, 2]` and the second answers 200 with body `[3, 4]`; the buffer
returned is `[1, 2, 3, 4]` — the 200 body is appended after the previously
accumulated chunk, so the result is not only the last full-body response
`[3, 4]` as the claim states. -/
theorem claim_C2_counterexample :
    (get_as_data "u" srvD).result = Except.ok [1, 2, 3, 4] ∧
    (Except.ok [1, 2, 3, 4] : Except String (List Nat)) ≠ Except.ok [3, 4] := by
  have hloop : rangedLoop srvD.ranged 4194304 0 [] =
      ⟨[0, 2097152], [2097152], false, Except.ok [1, 2, 3, 4]⟩ := by
    rw [rangedLoop]
    rw [rangedLoopC.eq_def]
    norm_num [srvD, CHUNK]
    rw [rangedLoopC.eq_def]
    norm_num [srvD, CHUNK]
  have hprobe : has_http_range srvD.head1 = Except.ok true := rfl
  have hlen : get_content_length "u" srvD.head2 = Except.ok 4194304 := by
    norm_num [srvD, get_content_length, statusIsSuccess]
  constructor
  · simp only [get_as_data, hprobe, hlen, hloop]
  · simp

/-- Claim C2 (amended): when a ranged request returns 200 mid-loop, the
downloader copies the full 200 body into the buffer *after* the bytes already
accumulated from the prior partial chunks and terminates immediately: the
result is the prior chunks followed by the full body, not only the last
full-body response. -/
theorem claim_C2 (serve : Nat → RangeResp) (total offset : Nat) (buf : List Nat)
    (h200 : (serve offset).status = 200) :
    rangedLoop serve total offset buf =
      ⟨[offset], [], false, Except.ok (buf ++ (serve offset).body)⟩ := by
  rw [rangedLoop, rangedLoopC.eq_def]
  simp [h200]

/-- Witness for the amended C2 with a non-empty accumulated buffer. -/
theorem claim_C2_witness :
    rangedLoop (fun _ => ⟨200, [9]⟩) 100 0 [5] =
      ⟨[0], [], false, Except.ok [5, 9]⟩ :=
  claim_C2 (fun _ => ⟨200, [9]⟩) 100 0 [5] rfl

/-- Claim C3: when the download runs the ranged path and every response is
206, the returned buffer is the concatenation of the partial-content bodies
at the requested offsets, the requests are in strictly increasing offset
order, and the progress-callback values are strictly increasing. -/
theorem claim_C3 (url : String) (srv : Server) (total : Nat)
    (hprobe : has_http_range srv.head1 = Except.ok true)
    (hlen : get_content_length url srv.head2 = Except.ok total)
    (h206 : ∀ o, (srv.ranged o).status = 206) :
    ∃ t, (get_as_data url srv).loopTrace = some t ∧
      (get_as_data url srv).result =
        Except.ok ((t.requests.map (fun o => (srv.ranged o).body)).flatten) ∧
      List.Chain' (· < ·) t.requests ∧
      List.Chain' (· < ·) t.progress := by
  obtain ⟨hres, hx⟩ := rangedLoopC_all206 CHUNK CHUNK_pos srv.ranged h206 total 0 []
  refine ⟨rangedLoop srv.ranged total 0 [], ?_, ?_, ?_, ?_⟩
  · simp only [get_as_data, hprobe, hlen]
  · simp only [get_as_data, hprobe, hlen]
    rw [rangedLoop]
    rw [hres]
    simp
  · obtain ⟨k, hk, hsh⟩ := rangedLoopC_requests_shape CHUNK CHUNK_pos srv.ranged total 0 []
    rw [rangedLoop, hsh]
    refine List.Pairwise.chain' ?_
    refine (List.pairwise_lt_range k).map _ ?_
    intro a b hab
    have := (Nat.mul_lt_mul_right CHUNK_pos).mpr hab
    omega
  · obtain ⟨k, hsh⟩ := rangedLoopC_progress_shape CHUNK CHUNK_pos srv.ranged total 0 []
    rw [rangedLoop, hsh]
    refine List.Pairwise.chain' ?_
    refine (List.pairwise_lt_range k).map _ ?_
    intro a b hab
    have h2 : (a + 1) * CHUNK < (b + 1) * CHUNK :=
      (Nat.mul_lt_mul_right CHUNK_pos).mpr (Nat.add_lt_add_right hab 1)
    omega

/-- Witness for C3 at the concrete all-206 server `srvA`. -/
theorem claim_C3_witness :
    ∃ t, (get_as_data "u" srvA).loopTrace = some t ∧
      (get_as_data "u" srvA).result =
        Except.ok ((t.requests.map (fun o => (srvA.ranged o).body)).flatten) ∧
      List.Chain' (· < ·) t.requests ∧
      List.Chain' (· < ·) t.progress :=
  claim_C3 "u" srvA 5000000 rfl rfl (fun _ => rfl)

/-- Claim C4: when the range probe reports support but the very first ranged
request answers 200, `get_as_data` returns exactly that response's body and
sends no further range requests. -/
theorem claim_C4 (url : String) (srv : Server) (total : Nat)
    (hprobe : has_http_range srv.head1 = Except.ok true)
    (hlen : get_content_length url srv.head2 = Except.ok total)
    (h200 : (srv.ranged 0).status = 200) :
    ∃ t, (get_as_data url srv).loopTrace = some t ∧ t.requests = [0] ∧
      (get_as_data url srv).result = Except.ok (srv.ranged 0).body := by
  have hloop : rangedLoop srv.ranged total 0 [] =
      ⟨[0], [], false, Except.ok (srv.ranged 0).body⟩ := by
    rw [rangedLoop, rangedLoopC.eq_def]
    simp [h200]
  exact ⟨rangedLoop srv.ranged total 0 [], by simp only [get_as_data, hprobe, hlen],
    by rw [hloop], by simp only [get_as_data, hprobe, hlen]; rw [hloop]⟩

/-- Witness for C4 at the concrete server `srvB` whose first ranged GET
answers 200. -/
theorem claim_C4_witness :
    ∃ t, (get_as_data "u" srvB).loopTrace = some t ∧ t.requests = [0] ∧
      (get_as_data "u" srvB).result = Except.ok (srvB.ranged 0).body :=
  claim_C4 "u" srvB 100 rfl rfl rfl

/-- Claim C5: when the range probe reports no support, `get_as_data` issues
exactly one plain GET; on a 2xx response it invokes the progress callback
exactly once with the full body size and returns the body; on a non-2xx
response it fails with an error naming the URL. -/
theorem claim_C5 (url : String) (srv : Server)
    (hprobe : has_http_range srv.head1 = Except.ok false) :
    (get_as_data url srv).fullRequests = [url] ∧
    (get_as_data url srv).loopTrace = none ∧
    (statusIsSuccess srv.full.status = true →
      (get_as_data url srv).fullProgress = [srv.full.body.length] ∧
      (get_as_data url srv).result = Except.ok srv.full.body) ∧
    (statusIsSuccess srv.full.status = false →
      (get_as_data url srv).fullProgress = [] ∧
      (get_as_data url srv).result =
        Except.error ("Error while getting from url <" ++ url ++ ">")) := by
  refine ⟨?_, ?_, ?_, ?_⟩ <;> simp only [get_as_data, hprobe]
  · split <;> rfl
  · split <;> rfl
  · intro h; rw [if_pos h]; exact ⟨rfl, rfl⟩
  · intro h; rw [if_neg (by simp [h])]; exact ⟨rfl, rfl⟩

/-- Witness for C5 at the concrete rangeless server `srvC`. -/
theorem claim_C5_witness :
    (get_as_data "u" srvC).fullRequests = ["u"] ∧
    (get_as_data "u" srvC).loopTrace = none ∧
    (statusIsSuccess srvC.full.status = true →
      (get_as_data "u" srvC).fullProgress = [srvC.full.body.length] ∧
      (get_as_data "u" srvC).result = Except.ok srvC.full.body) ∧
    (statusIsSuccess srvC.full.status = false →
      (get_as_data "u" srvC).fullProgress = [] ∧
      (get_as_data "u" srvC).result =
        Except.error ("Error while getting from url <" ++ "u" ++ ">")) :=
  claim_C5 "u" srvC rfl

/-- Claim C6: `get_content_length` fails explicitly (never returns a value,
in particular not 0) on a 2xx response lacking a content-length header;
fails naming the URL and status on a non-2xx response; and returns the
parsed content-length exactly when the status is 2xx and the header is
present. -/
theorem claim_C6 (url : String) (resp : HeadResp) :
    (statusIsSuccess resp.status = true → resp.content_length = none →
      get_content_length url resp =
        Except.error ("Error getting length of url <" ++ url ++ ">") ∧
      ∀ n, get_content_length url resp ≠ Except.ok n) ∧
    (statusIsSuccess resp.status = false →
      get_content_length url resp =
        Except.error ("Error while trying to access url <" ++ url ++ "> - <" ++
          toString resp.status ++ ">")) ∧
    (∀ n, statusIsSuccess resp.status = true → resp.content_length = some n →
      get_content_length url resp = Except.ok n) := by
  refine ⟨?_, ?_, ?_⟩
  · intro hs hn
    simp [get_content_length, hs, hn]
  · intro hs
    simp [get_content_length, hs]
  · intro n hs hn
    simp [get_content_length, hs, hn]

/-- Witness for C6: header absent, non-2xx status, and the success case. -/
theorem claim_C6_witness :
    get_content_length "a" ⟨200, none, false⟩ =
      Except.error "Error getting length of url <a>" ∧
    get_content_length "b" ⟨404, none, false⟩ =
      Except.error "Error while trying to access url <b> - <404>" ∧
    get_content_length "c" ⟨200, some 42, false⟩ = Except.ok 42 :=
  ⟨((claim_C6 "a" ⟨200, none, false⟩).1 rfl rfl).1,
    (claim_C6 "b" ⟨404, none, false⟩).2.1 rfl,
    (claim_C6 "c" ⟨200, some 42, false⟩).2.2 42 rfl rfl⟩

/-- Claim C7: `get_as_json` fetches the body through `get_as_text` and then
parses it; on a 2xx response whose body fails to parse it returns a parse
error naming the URL and the underlying diagnostic, and any successful value
it returns is exactly what the parser produced (never a partial value).
The validity hypothesis `hval` restricts to executions in which header
construction succeeds, since otherwise the program panics before any request
is sent and no response exists to speak of. -/
theorem claim_C7 {V : Type} (parse : String → Except String V) (url : String)
    (auth : Auth) (resp : TextResp) (tok : String)
    (htok : auth.access_token = some tok)
    (hval : headerValueValid ("Bearer " ++ tok) = true) :
    (∀ e, statusIsSuccess resp.status = true → parse resp.body = Except.error e →
      get_as_json parse url auth resp =
        some (Except.error
          ("Error parsing json from url <" ++ url ++ ">: " ++ toString e))) ∧
    (∀ v, get_as_json parse url auth resp = some (Except.ok v) →
      parse resp.body = Except.ok v) := by
  constructor
  · intro e hs hp
    simp [get_as_json, get_as_text, construct_headers, htok, hval, hs, hp]
  · intro v hv
    simp only [get_as_json, get_as_text, construct_headers, htok, hval,
      if_true, ite_true] at hv
    by_cases hs : statusIsSuccess resp.status
    · simp only [hs, if_true, ite_true] at hv
      cases hp : parse resp.body with
      | ok w => rw [hp] at hv; simpa using hv
      | error e => rw [hp] at hv; simp at hv
    · simp only [hs, if_false, ite_false] at hv
      simp at hv

/-- Witness for C7: a parser that always fails, on a 200 response. -/
theorem claim_C7_witness :
    get_as_json (fun _ => (Except.error "boom" : Except String Nat)) "u"
      ⟨some "T"⟩ ⟨200, "notjson"⟩ =
      some (Except.error "Error parsing json from url <u>: boom") :=
  (claim_C7 (fun _ => (Except.error "boom" : Except String Nat)) "u"
    ⟨some "T"⟩ ⟨200, "notjson"⟩ "T" rfl rfl).1 "boom" rfl rfl

/-- Claim C8 counterexample: the token `"a\nb"` is present, yet header
construction produces no header set — `HeaderValue::from_str` rejects the
newline byte, so the `unwrap` at the `authorization` insert panics instead
of producing headers, refuting "for every Auth containing an access token,
header construction produces a header set". -/
theorem claim_C8_counterexample :
    (Auth.mk (some "a\nb")).access_token = some "a\nb" ∧
    construct_headers ⟨some "a\nb"⟩ = none ∧
    ∀ hm : HeaderMap, construct_headers ⟨some "a\nb"⟩ ≠ some hm := by
  refine ⟨rfl, rfl, ?_⟩
  intro hm h
  rw [show construct_headers ⟨some "a\nb"⟩ = none from rfl] at h
  exact Option.noConfusion h

/-- Claim C8 (amended): with an access token present whose bearer string
`Bearer <token>` is a valid HTTP header value (no control bytes), header
construction yields both the standard `authorization` header and the custom
lowercase `x-udemy-authorization` header carrying the identical value
`Bearer <token>`, plus the fixed `DEFAULT_UA` user-agent, and the headers
are deterministic in the `Auth` value; for a present token whose bearer
string is not a valid header value the construction step panics instead. -/
theorem claim_C8 (auth : Auth) (tok : String)
    (htok : auth.access_token = some tok)
    (hval : headerValueValid ("Bearer " ++ tok) = true) :
    ∃ hm, construct_headers auth = some hm ∧
      hm.find "authorization" = some ("Bearer " ++ tok) ∧
      hm.find "x-udemy-authorization" = some ("Bearer " ++ tok) ∧
      hm.find "user-agent" = some DEFAULT_UA ∧
      ∀ auth₂ : Auth, auth₂.access_token = auth.access_token →
        construct_headers auth₂ = construct_headers auth := by
  refine ⟨⟨[("authorization", "Bearer " ++ tok),
    ("x-udemy-authorization", "Bearer " ++ tok), ("user-agent", DEFAULT_UA)]⟩,
    ?_, ?_, ?_, ?_, ?_⟩
  · simp [construct_headers, htok, hval, HeaderMap.empty, HeaderMap.insert]
  · simp [HeaderMap.find]
  · simp [HeaderMap.find]
  · simp [HeaderMap.find]
  · intro auth₂ h2
    simp [construct_headers, h2]

/-- Witness for the amended C8 at a concrete valid token. -/
theorem claim_C8_witness :
    ∃ hm, construct_headers ⟨some "T"⟩ = some hm ∧
      hm.find "authorization" = some ("Bearer " ++ "T") ∧
      hm.find "x-udemy-authorization" = some ("Bearer " ++ "T") ∧
      hm.find "user-agent" = some DEFAULT_UA ∧
      ∀ auth₂ : Auth, auth₂.access_token = (⟨some "T"⟩ : Auth).access_token →
        construct_headers auth₂ = construct_headers ⟨some "T"⟩ :=
  claim_C8 ⟨some "T"⟩ "T" rfl rfl

/-- Claim C9 counterexample: the token `"a\nb"` is present, yet header
construction panics (the `HeaderValue::from_str(bearer).unwrap()` at
http_client.rs:146 rejects the newline), refuting "with a token present,
header construction does not panic". -/
theorem claim_C9_counterexample :
    (Auth.mk (some "a\nb")).access_token = some "a\nb" ∧
    construct_headers ⟨some "a\nb"⟩ = none :=
  ⟨rfl, rfl⟩

/-- Claim C9 (amended): with the access token absent, every authenticated
operation (`get_as_text`, `get_as_json`, `post_json`) panics during header
construction before any request is sent (empty request log, `none` result);
with a token present whose bearer string is a valid HTTP header value,
header construction does not panic (for a present token with invalid header
bytes, e.g. a newline, it still panics). -/
theorem claim_C9 {V : Type} (parse : String → Except String V) (url : String)
    (auth : Auth) (resp : TextResp) (j : V) (s : Nat) :
    (auth.access_token = none →
      (get_as_text url auth resp).sentRequests = [] ∧
      (get_as_text url auth resp).result = none ∧
      get_as_json parse url auth resp = none ∧
      (post_json url j auth s).sentRequests = [] ∧
      (post_json url j auth s).result = none) ∧
    (∀ tok, auth.access_token = some tok →
      headerValueValid ("Bearer " ++ tok) = true →
      construct_headers auth ≠ none) := by
  constructor
  · intro hnone
    refine ⟨?_, ?_, ?_, ?_, ?_⟩ <;>
      simp [get_as_text, get_as_json, post_json, construct_headers, hnone]
  · intro tok htok hval
    simp [construct_headers, htok, hval]

/-- Witness for the amended C9: a token-less `Auth` panics with nothing
sent; a concrete valid token does not panic. -/
theorem claim_C9_witness :
    ((get_as_text "u" ⟨none⟩ ⟨200, "x"⟩).sentRequests = [] ∧
      (get_as_text "u" ⟨none⟩ ⟨200, "x"⟩).result = none ∧
      get_as_json (fun _ => (Except.error "e" : Except String Nat)) "u" ⟨none⟩ ⟨200, "x"⟩ = none ∧
      (post_json "u" (0 : Nat) ⟨none⟩ 200).sentRequests = [] ∧
      (post_json "u" (0 : Nat) ⟨none⟩ 200).result = none) ∧
    construct_headers ⟨some "T"⟩ ≠ none :=
  ⟨(claim_C9 (fun _ => (Except.error "e" : Except String Nat)) "u" ⟨none⟩
      ⟨200, "x"⟩ (0 : Nat) 200).1 rfl,
    (claim_C9 (fun _ => (Except.error "e" : Except String Nat)) "u" ⟨some "T"⟩
      ⟨200, "x"⟩ (0 : Nat) 200).2 "T" rfl rfl⟩

/-- Claim C10: in the ranged path the value passed to the progress callback
after the k-th accepted 206 is exactly `k * CHUNK`, computed from the running
offset rather than from bytes received, and whenever the loop completes via
the 206 exit condition the final reported value strictly exceeds the total. -/
theorem claim_C10 (url : String) (srv : Server) (total : Nat)
    (hprobe : has_http_range srv.head1 = Except.ok true)
    (hlen : get_content_length url srv.head2 = Except.ok total) :
    ∃ t, (get_as_data url srv).loopTrace = some t ∧
      (∀ i, (h : i < t.progress.length) → t.progress[i] = (i + 1) * CHUNK) ∧
      (t.exit206 = true →
        ∃ v, t.progress.getLast? = some v ∧ total < v) := by
  refine ⟨rangedLoop srv.ranged total 0 [], by simp only [get_as_data, hprobe, hlen], ?_, ?_⟩
  · obtain ⟨k, hsh⟩ := rangedLoopC_progress_shape CHUNK CHUNK_pos srv.ranged total 0 []
    have hsh' : (rangedLoop srv.ranged total 0 []).progress =
        (List.range k).map (fun i => 0 + (i + 1) * CHUNK) := by
      rw [rangedLoop]; exact hsh
    intro i h
    rw [List.getElem_of_eq hsh' h]
    simp [List.getElem_map, List.getElem_range]
  · intro hx
    have hx' : (rangedLoopC CHUNK CHUNK_pos srv.ranged total 0 []).exit206 = true := by
      rw [← rangedLoop]; exact hx
    have := rangedLoopC_exit206_last CHUNK CHUNK_pos srv.ranged total 0 [] hx'
    rw [rangedLoop]
    exact this

/-- Witness for C10 at the concrete all-206 server `srvA`. -/
theorem claim_C10_witness :
    ∃ t, (get_as_data "u" srvA).loopTrace = some t ∧
      (∀ i, (h : i < t.progress.length) → t.progress[i] = (i + 1) * CHUNK) ∧
      (t.exit206 = true →
        ∃ v, t.progress.getLast? = some v ∧ 5000000 < v) :=
  claim_C10 "u" srvA 5000000 rfl rfl

end HttpClient
